import Mathlib

/-!
Verification development for the restaurant waitlist coordinator
(`restaurant.py`): a conversation state machine interpreting inbound text
messages under a customer/waiter role, a waitlist/table store backed by the
`users` and `tables` tables, and a best-fit seating-allocation engine.

The Python source is shallowly embedded below.  Machine state (the SQLite
database plus the per-sender conversation session) is passed explicitly, and
the wall-clock `CURRENT_TIMESTAMP` is modelled as a `Nat` parameter `now`
supplied to every operation that records a timestamp.  Python string
primitives used by the webhook handler (`lower`, `strip`, `replace`,
`split`, `isdigit`, `int`) are modelled by structurally recursive functions
over the character data of a `String`.
-/

/-! ### Python string primitives -/

/-- Python `str.lower()` (ASCII letters, as produced by the messaging layer). -/
def py_lower (s : String) : String := ⟨s.data.map Char.toLower⟩

/-- Python `str.upper()`. -/
def py_upper (s : String) : String := ⟨s.data.map Char.toUpper⟩

/-- Python `str.strip()`: drop whitespace from both ends. -/
def py_strip (s : String) : String :=
  ⟨((s.data.dropWhile Char.isWhitespace).reverse.dropWhile Char.isWhitespace).reverse⟩

/-- Python `text.replace("table", "")`: remove every (non-overlapping,
left-to-right) occurrence of the substring `"table"`. -/
def remove_table : List Char → List Char
  | 't' :: 'a' :: 'b' :: 'l' :: 'e' :: rest => remove_table rest
  | c :: rest => c :: remove_table rest
  | [] => []

/-- String-level wrapper for `remove_table`. -/
def py_replace_table (s : String) : String := ⟨remove_table s.data⟩

/-- Python `str.split(",")` on the character list: split at every comma. -/
def split_on_comma : List Char → List (List Char)
  | [] => [[]]
  | c :: rest =>
    let r := split_on_comma rest
    if c = ',' then [] :: r
    else
      match r with
      | h :: t => (c :: h) :: t
      | [] => [[c]]

/-- Python `text.split(",")`. -/
def py_split_comma (s : String) : List String :=
  (split_on_comma s.data).map fun l => ⟨l⟩

/-- Python `str.isdigit()`: nonempty and all decimal digits. -/
def py_isdigit (s : String) : Bool :=
  !s.data.isEmpty && s.data.all Char.isDigit

/-- Numeric value of a list of decimal digit characters. -/
def digits_to_nat (l : List Char) : Nat :=
  l.foldl (fun acc c => acc * 10 + (c.toNat - 48)) 0

/-- Python `int(s)` on an already-stripped string: an optional sign followed
by at least one decimal digit; anything else raises `ValueError` (`none`). -/
def py_int (s : String) : Option Int :=
  match s.data with
  | '+' :: rest =>
    if !rest.isEmpty && rest.all Char.isDigit then some (digits_to_nat rest) else none
  | '-' :: rest =>
    if !rest.isEmpty && rest.all Char.isDigit then some (-(digits_to_nat rest : Int)) else none
  | l =>
    if !l.isEmpty && l.all Char.isDigit then some (digits_to_nat l) else none

/-! ### Data model: rows of the `users` and `tables` tables -/

/-- One row of the `users` table: a waiting party. -/
structure Customer where
  id : Nat
  phone_number : String
  name : String
  people_count : Nat
  timestamp : Nat
deriving Repr, DecidableEq

/-- One row of the `tables` table: a physical restaurant table. -/
structure TableRec where
  id : Nat
  table_number : String
  capacity : Nat
  status : String
  occupied_by_user_id : Option Nat
  occupied_timestamp : Option Nat
  timestamp : Nat
deriving Repr, DecidableEq

/-- The database `users.db`: the waitlist, the table set, and the next
`AUTOINCREMENT` id for the `users` table. -/
structure DB where
  users : List Customer
  tables : List TableRec
  next_user_id : Nat
deriving Repr, DecidableEq

/-- The per-sender conversation session held in `user_states`. -/
structure UserState where
  role : String
  state : String
deriving Repr, DecidableEq

/-- Outbound message instructions produced by the webhook handler
(identifying each `send_message` call site in the source). -/
inductive Msg where
  | password_prompt
  | waiter_authenticated
  | incorrect_password
  | table_marked_free (table_number : String)
  | table_not_found (table_number : String)
  | name_people_prompt
  | queued_confirmation (name : String) (people_count : Nat)
  | positive_integer_required
  | too_many_people
  | queue_error
  | format_error
  | generic_help
deriving Repr, DecidableEq

/-- Result of handling one inbound text message: the updated session, the
updated database, and the ordered outbound messages `(recipient, payload)`. -/
structure WebhookResult where
  user_state : UserState
  db : DB
  messages : List (String × Msg)
deriving Repr, DecidableEq

/-! ### Store operations -/

/-- `save_user_data_to_db`: upsert a waiting party by phone number.  If a row
with this phone number exists its name, people count and timestamp are
updated (`UPDATE ... WHERE id = ?`); otherwise a new row is inserted with the
next autoincrement id.  Returns the updated database and the user's id. -/
def save_user_data_to_db (now : Nat) (db : DB) (phone_number name : String)
    (people_count : Nat) : DB × Nat :=
  match db.users.find? (fun u => u.phone_number = phone_number) with
  | some u =>
    ({ db with
        users := db.users.map fun v =>
          if v.id = u.id then
            { v with name := name, people_count := people_count, timestamp := now }
          else v },
     u.id)
  | none =>
    ({ db with
        users := db.users ++
          [{ id := db.next_user_id, phone_number := phone_number, name := name,
             people_count := people_count, timestamp := now }],
        next_user_id := db.next_user_id + 1 },
     db.next_user_id)

/-- `update_table_status_to_free`: mark every table with the given number as
free, clearing `occupied_by_user_id` and `occupied_timestamp`.  The `Bool`
is `cursor.rowcount > 0`: whether any table with that number exists. -/
def update_table_status_to_free (now : Nat) (db : DB) (table_number : String) :
    DB × Bool :=
  ({ db with
      tables := db.tables.map fun t =>
        if t.table_number = table_number then
          { t with status := "free", occupied_by_user_id := none,
                   occupied_timestamp := none, timestamp := now }
        else t },
   db.tables.any fun t => t.table_number = table_number)

/-- Ordering used by `get_waiting_customers` (`ORDER BY timestamp ASC`). -/
def customer_le (a b : Customer) : Prop := a.timestamp ≤ b.timestamp

instance : DecidableRel customer_le := fun a b => by
  unfold customer_le; infer_instance

/-- Ordering used by `get_free_tables` (`ORDER BY capacity ASC`). -/
def table_capacity_le (a b : TableRec) : Prop := a.capacity ≤ b.capacity

instance : DecidableRel table_capacity_le := fun a b => by
  unfold table_capacity_le; infer_instance

/-- `get_waiting_customers`: the queue ordered by timestamp, oldest first
(stable in rowid order on ties). -/
def get_waiting_customers (db : DB) : List Customer :=
  db.users.insertionSort customer_le

/-- `get_free_tables`: all free tables ordered by capacity, smallest first. -/
def get_free_tables (db : DB) : List TableRec :=
  (db.tables.filter fun t => t.status = "free").insertionSort table_capacity_le

/-- `seat_customer`: mark the table occupied by the customer and delete the
customer from the queue.  (The outbound notification is I/O and not part of
the store state.) -/
def seat_customer (now : Nat) (db : DB) (customer_id table_id : Nat) : DB :=
  { db with
    tables := db.tables.map fun t =>
      if t.id = table_id then
        { t with status := "occupied", occupied_by_user_id := some customer_id,
                 occupied_timestamp := some now, timestamp := now }
      else t,
    users := db.users.filter fun u => u.id ≠ customer_id }

/-- The fixed table configuration seeded by `init_db`. -/
def initial_tables_config : List (String × Nat) :=
  [("T1", 2), ("T2", 2), ("T3", 2), ("T4", 2),
   ("T5", 4), ("T6", 4), ("T7", 4), ("T8", 4),
   ("T9", 6), ("T10", 6)]

/-- Seed table rows with consecutive autoincrement ids, all free. -/
def seed_tables : List (String × Nat) → Nat → List TableRec
  | [], _ => []
  | (n, c) :: rest, i =>
    { id := i, table_number := n, capacity := c, status := "free",
      occupied_by_user_id := none, occupied_timestamp := none, timestamp := 0 } ::
      seed_tables rest (i + 1)

/-- The database produced by `init_db` on first run: empty queue, the ten
configured tables, all free. -/
def initial_db : DB :=
  { users := [], tables := seed_tables initial_tables_config 1, next_user_id := 1 }

/-! ### Allocation engine -/

/-- One entry of `potential_allocations`:
`(wasted_seats, customer_timestamp, customer, table)`. -/
structure Candidate where
  wasted_seats : Nat
  customer_timestamp : Nat
  customer : Customer
  table : TableRec
deriving Repr, DecidableEq

/-- One iteration of the inner `for table in free_tables` loop: keep the
table with strictly fewer wasted seats; on an equal-waste tie compare the
candidate timestamps (both are this customer's own timestamp, so the
earlier-stored candidate is kept). -/
def best_match_step (customer : Customer) (best : Option Candidate)
    (table : TableRec) : Option Candidate :=
  if customer.people_count ≤ table.capacity then
    let wasted_seats := table.capacity - customer.people_count
    match best with
    | none => some ⟨wasted_seats, customer.timestamp, customer, table⟩
    | some b =>
      if wasted_seats < b.wasted_seats then
        some ⟨wasted_seats, customer.timestamp, customer, table⟩
      else if wasted_seats = b.wasted_seats then
        if customer.timestamp < b.customer_timestamp then
          some ⟨wasted_seats, customer.timestamp, customer, table⟩
        else best
      else best
  else best

/-- The single best table for one waiting entry alone: scan all free tables
with sufficient capacity and keep the minimum-waste match. -/
def best_match_for_customer (customer : Customer) (free_tables : List TableRec) :
    Option Candidate :=
  free_tables.foldl (best_match_step customer) none

/-- The pool of per-entry candidates, in waiting-list order: one candidate
per entry that has any feasible table. -/
def potential_allocations (waiting_customers : List Customer)
    (free_tables : List TableRec) : List Candidate :=
  waiting_customers.filterMap fun c => best_match_for_customer c free_tables

/-- Python `sorted(..., key=lambda x: (x[0], x[1]))`: wasted seats
ascending, then customer timestamp ascending. -/
def candidate_le (a b : Candidate) : Prop :=
  a.wasted_seats < b.wasted_seats ∨
    (a.wasted_seats = b.wasted_seats ∧ a.customer_timestamp ≤ b.customer_timestamp)

instance : DecidableRel candidate_le := fun a b => by
  unfold candidate_le; infer_instance

instance : IsTotal Candidate candidate_le where
  total a b := by
    unfold candidate_le
    rcases Nat.lt_trichotomy a.wasted_seats b.wasted_seats with h | h | h
    · exact Or.inl (Or.inl h)
    · rcases Nat.le_total a.customer_timestamp b.customer_timestamp with h' | h'
      · exact Or.inl (Or.inr ⟨h, h'⟩)
      · exact Or.inr (Or.inr ⟨h.symm, h'⟩)
    · exact Or.inr (Or.inl h)

instance : IsTrans Candidate candidate_le where
  trans a b c hab hbc := by
    unfold candidate_le at *
    rcases hab with h1 | ⟨h1, h1'⟩ <;> rcases hbc with h2 | ⟨h2, h2'⟩
    · exact Or.inl (h1.trans h2)
    · exact Or.inl (h2 ▸ h1)
    · exact Or.inl (h1 ▸ h2)
    · exact Or.inr ⟨h1.trans h2, h1'.trans h2'⟩

/-- The sorted candidate pool of one allocation pass over database `db`. -/
def sorted_allocations (db : DB) : List Candidate :=
  (potential_allocations (get_waiting_customers db) (get_free_tables db)).insertionSort
    candidate_le

/-- The commit loop: walk the sorted pool, seat the first candidate whose
customer and table are both unclaimed in this run, and break.  Returns the
updated database and the committed candidate, or `none` if no commit
happened. -/
def execute_allocations (now : Nat) (db : DB) :
    List Candidate → List Nat → List Nat → Option (DB × Candidate)
  | [], _, _ => none
  | cand :: rest, seated_customer_ids, occupied_table_ids =>
    if cand.customer.id ∉ seated_customer_ids ∧ cand.table.id ∉ occupied_table_ids then
      some (seat_customer now db cand.customer.id cand.table.id, cand)
    else
      execute_allocations now db rest seated_customer_ids occupied_table_ids

/-- One full allocation pass of `attempt_seating_allocation`: build and sort
the candidate pool, then commit at most one seating. -/
def allocation_pass (now : Nat) (db : DB) : Option (DB × Candidate) :=
  execute_allocations now db (sorted_allocations db) [] []

/-- `attempt_seating_allocation`, fuelled: if a pass commits a seating,
re-run the entire allocation on the updated database; if no commit happens,
stop.  Every committed pass deletes one queue row, so
`db.users.length + 1` fuel always suffices (proved below). -/
def attempt_seating_allocation_fuel (now : Nat) : Nat → DB → DB
  | 0, db => db
  | fuel + 1, db =>
    match allocation_pass now db with
    | some (db', _) => attempt_seating_allocation_fuel now fuel db'
    | none => db

/-- `attempt_seating_allocation`: the recursive allocation run. -/
def attempt_seating_allocation (now : Nat) (db : DB) : DB :=
  attempt_seating_allocation_fuel now (db.users.length + 1) db

/-! ### Conversation state machine (the `webhook` handler, text branch) -/

/-- Normalization of the waiter's table-number input: remove `"table"`,
strip whitespace, prefix pure digits with `"T"`, otherwise upper-case. -/
def normalize_table_number (text : String) : String :=
  let table_input := py_strip (py_replace_table text)
  if py_isdigit table_input then "T" ++ table_input
  else py_upper table_input

/-- Parsing of the customer's `"Name, Count"` reply:
`name, people_count_str = map(str.strip, text.split(","))` followed by
`int(people_count_str)`; any failure raises `ValueError` (`none`). -/
def parse_name_people (text : String) : Option (String × Int) :=
  match py_split_comma text with
  | [a, b] => (py_int (py_strip b)).map fun n => (py_strip a, n)
  | _ => none

/-- The `webhook` handler for one inbound text message from `sender` with
raw body `body`, given the sender's current session `st` and database `db`.
Returns the sender's new session, the new database and the ordered outbound
messages. -/
def handle_text (now : Nat) (sender : String) (st : UserState) (db : DB)
    (body : String) : WebhookResult :=
  let text := py_strip (py_lower body)
  if st.state = "initial" ∧ text = "waiter" then
    ⟨⟨"waiter", "awaiting_waiter_password"⟩, db, [(sender, Msg.password_prompt)]⟩
  else if st.state = "awaiting_waiter_password" ∧ st.role = "waiter" then
    if text = "waiter123" then
      ⟨⟨"waiter", "awaiting_free_table_number"⟩, db, [(sender, Msg.waiter_authenticated)]⟩
    else
      ⟨⟨"customer", "initial"⟩, db, [(sender, Msg.incorrect_password)]⟩
  else if st.state = "awaiting_free_table_number" ∧ st.role = "waiter" then
    let table_number := normalize_table_number text
    let res := update_table_status_to_free now db table_number
    if res.2 then
      ⟨⟨"customer", "initial"⟩, attempt_seating_allocation now res.1,
        [(sender, Msg.table_marked_free table_number)]⟩
    else
      ⟨⟨"customer", "initial"⟩, res.1, [(sender, Msg.table_not_found table_number)]⟩
  else if st.state = "initial" ∧ text = "hi" then
    ⟨⟨"customer", "awaiting_name_people"⟩, db, [(sender, Msg.name_people_prompt)]⟩
  else if st.state = "awaiting_name_people" ∧ st.role = "customer" then
    match parse_name_people text with
    | none => ⟨st, db, [(sender, Msg.format_error)]⟩
    | some (name, people_count) =>
      if people_count ≤ 0 then
        ⟨st, db, [(sender, Msg.positive_integer_required)]⟩
      else if 6 < people_count then
        ⟨st, db, [(sender, Msg.too_many_people)]⟩
      else
        let res := save_user_data_to_db now db sender name people_count.toNat
        if res.2 ≠ 0 then
          ⟨⟨"customer", "initial"⟩, attempt_seating_allocation now res.1,
            [(sender, Msg.queued_confirmation name people_count.toNat)]⟩
        else
          ⟨st, res.1, [(sender, Msg.queue_error)]⟩
  else
    ⟨st, db, [(sender, Msg.generic_help)]⟩

/-! ### Concrete scenarios from the specification -/

/-- Free tables of capacities `{2, 2, 4, 6}` and waiting parties of sizes
`{2, 5}` enqueued in that order. -/
def scenario1_db : DB :=
  { users := [⟨1, "c1", "alice", 2, 1⟩, ⟨2, "c2", "bob", 5, 2⟩],
    tables := [⟨1, "T1", 2, "free", none, none, 0⟩, ⟨2, "T2", 2, "free", none, none, 0⟩,
               ⟨3, "T3", 4, "free", none, none, 0⟩, ⟨4, "T4", 6, "free", none, none, 0⟩],
    next_user_id := 3 }

/-- Two parties of size 2 enqueued at times `t1` and `t2`, with one free
capacity-2 table. -/
def scenario2_db (t1 t2 : Nat) : DB :=
  { users := [⟨1, "p1", "ann", 2, t1⟩, ⟨2, "p2", "ben", 2, t2⟩],
    tables := [⟨1, "T1", 2, "free", none, none, 0⟩],
    next_user_id := 3 }

/-! ### Reachable table states (for the occupancy invariant) -/

/-- Database states reachable from the seeded initial state by any sequence
of seat and release operations. -/
inductive Reach : DB → Prop where
  | init : Reach initial_db
  | seat (now customer_id table_id : Nat) {db : DB} :
      Reach db → Reach (seat_customer now db customer_id table_id)
  | release (now : Nat) (table_number : String) {db : DB} :
      Reach db → Reach (update_table_status_to_free now db table_number).1

/-- The table invariant: the occupant id is set exactly on occupied tables. -/
def occupant_iff_occupied (db : DB) : Prop :=
  ∀ t ∈ db.tables, t.occupied_by_user_id ≠ none ↔ t.status = "occupied"

/-! ### Helper lemmas: the allocation engine -/

/-- A candidate produced by the inner table scan belongs to the customer it
was computed for. -/
theorem best_match_step_customer (c : Customer) :
    ∀ (tables : List TableRec) (acc : Option Candidate) (cand : Candidate),
      (∀ x, acc = some x → x.customer = c) →
      tables.foldl (best_match_step c) acc = some cand → cand.customer = c := by
  intro tables
  induction tables with
  | nil => intro acc cand hacc h; exact hacc cand h
  | cons t ts ih =>
    intro acc cand hacc h
    refine ih (best_match_step c acc t) cand ?_ h
    intro x hx
    unfold best_match_step at hx
    split at hx
    · cases acc with
      | none => simp at hx; simp [← hx]
      | some b =>
        simp only at hx
        split at hx
        · simp at hx; simp [← hx]
        · split at hx
          · split at hx
            · simp at hx; simp [← hx]
            · exact hacc x hx
          · exact hacc x hx
    · exact hacc x hx

/-- The best match computed for a customer carries that customer. -/
theorem best_match_for_customer_customer {c : Customer} {tables : List TableRec}
    {cand : Candidate} (h : best_match_for_customer c tables = some cand) :
    cand.customer = c :=
  best_match_step_customer c tables none cand (by intro x hx; cases hx) h

/-- Every candidate in the sorted pool is for a customer on the waitlist. -/
theorem customer_of_mem_sorted_allocations {db : DB} {cand : Candidate}
    (h : cand ∈ sorted_allocations db) : cand.customer ∈ db.users := by
  unfold sorted_allocations at h
  rw [List.mem_insertionSort] at h
  unfold potential_allocations at h
  rw [List.mem_filterMap] at h
  obtain ⟨c, hc, hbest⟩ := h
  rw [best_match_for_customer_customer hbest]
  unfold get_waiting_customers at hc
  exact (List.mem_insertionSort _).1 hc

/-- The commit loop either returns no commit, or seats a candidate drawn
from its input pool. -/
theorem execute_allocations_some {now : Nat} {db : DB} :
    ∀ {l : List Candidate} {s o : List Nat} {db' : DB} {cand : Candidate},
      execute_allocations now db l s o = some (db', cand) →
      cand ∈ l ∧ db' = seat_customer now db cand.customer.id cand.table.id := by
  intro l
  induction l with
  | nil => intro s o db' cand h; cases h
  | cons c rest ih =>
    intro s o db' cand h
    unfold execute_allocations at h
    split at h
    · simp only [Option.some.injEq, Prod.mk.injEq] at h
      exact ⟨by simp [h.2], h.1.symm ▸ by rw [h.2]⟩
    · have := ih h
      exact ⟨List.mem_cons_of_mem _ this.1, this.2⟩

/-- With the claimed-sets empty, the commit loop commits exactly the head of
the sorted pool (the source's `break` after the first commit). -/
theorem allocation_pass_eq_head (now : Nat) (db : DB) :
    allocation_pass now db =
      (sorted_allocations db).head?.map
        (fun c => (seat_customer now db c.customer.id c.table.id, c)) := by
  unfold allocation_pass
  cases h : sorted_allocations db with
  | nil => rfl
  | cons c rest =>
    unfold execute_allocations
    simp

/-- Filtering out a list member strictly shortens the list. -/
theorem length_filter_lt_of_mem {α : Type} {p : α → Bool} {l : List α} {x : α}
    (hx : x ∈ l) (hpx : p x = false) : (l.filter p).length < l.length := by
  induction l with
  | nil => cases hx
  | cons u us ih =>
    rcases List.mem_cons.1 hx with rfl | hu
    · simp only [List.filter_cons, hpx]
      exact Nat.lt_succ_of_le (List.length_filter_le _ _)
    · simp only [List.filter_cons]
      split
      · simpa using ih hu
      · exact Nat.lt_succ_of_lt (ih hu)

/-- A committed pass strictly shrinks the waitlist. -/
theorem allocation_pass_users_lt {now : Nat} {db : DB} {db' : DB} {cand : Candidate}
    (h : allocation_pass now db = some (db', cand)) :
    db'.users.length < db.users.length := by
  obtain ⟨hmem, hdb'⟩ := execute_allocations_some h
  have hcust : cand.customer ∈ db.users := customer_of_mem_sorted_allocations hmem
  subst hdb'
  unfold seat_customer
  simp only
  exact length_filter_lt_of_mem hcust (by simp)

/-- Fuel irrelevance: any fuel strictly above the waitlist length computes
the same result, i.e. the recursive allocation run terminates. -/
theorem attempt_fuel_irrelevant (now : Nat) :
    ∀ (f1 f2 : Nat) (db : DB), db.users.length < f1 → db.users.length < f2 →
      attempt_seating_allocation_fuel now f1 db = attempt_seating_allocation_fuel now f2 db := by
  intro f1
  induction f1 with
  | zero => intro f2 db h1; cases h1
  | succ f1 ih =>
    intro f2 db h1 h2
    cases f2 with
    | zero => cases h2
    | succ f2 =>
      unfold attempt_seating_allocation_fuel
      cases hp : allocation_pass now db with
      | none => rfl
      | some p =>
        obtain ⟨db', cand⟩ := p
        have hlt := allocation_pass_users_lt hp
        exact ih f2 db' (Nat.lt_of_lt_of_le hlt (Nat.lt_succ_iff.1 h1))
          (Nat.lt_of_lt_of_le hlt (Nat.lt_succ_iff.1 h2))

/-- Unfolding: a pass with no commit ends the run. -/
theorem attempt_eq_of_pass_none {now : Nat} {db : DB}
    (h : allocation_pass now db = none) :
    attempt_seating_allocation now db = db := by
  unfold attempt_seating_allocation attempt_seating_allocation_fuel
  rw [h]

/-- Unfolding: a committed pass restarts the entire allocation on the
updated database. -/
theorem attempt_eq_of_pass_some {now : Nat} {db db' : DB} {cand : Candidate}
    (h : allocation_pass now db = some (db', cand)) :
    attempt_seating_allocation now db = attempt_seating_allocation now db' := by
  unfold attempt_seating_allocation
  conv_lhs => unfold attempt_seating_allocation_fuel
  rw [h]
  exact attempt_fuel_irrelevant now _ _ db'
    (allocation_pass_users_lt h) (Nat.lt_succ_self _)

/-- A two-element list sorts in place when the elements are in order. -/
theorem insertionSort_pair {α : Type} (r : α → α → Prop) [DecidableRel r]
    (a b : α) (h : r a b) : List.insertionSort r [a, b] = [a, b] := by
  simp [List.insertionSort, List.orderedInsert, if_pos h]

/-- Without a free table, no waiting entry yields a candidate. -/
theorem potential_allocations_nil_tables (l : List Customer) :
    potential_allocations l [] = [] := by
  unfold potential_allocations best_match_for_customer
  induction l with
  | nil => rfl
  | cons c cs ih => simp only [List.filterMap] at ih ⊢; exact ih

/-! ### Claim theorems: the allocation engine -/

/-- C1: starting from free tables of capacities `{2,2,4,6}` and waiting
parties of sizes `{2,5}` enqueued in that order, repeated allocation seats
the size-5 party at the capacity-6 table and the size-2 party at a
capacity-2 table; in general, whenever the candidate pool of a pass contains
a zero-wasted-seat candidate, the candidate a pass commits has zero wasted
seats, so a zero-waste assignment is never passed over for a positive-waste
one in the same pass. -/
theorem zero_waste_never_skipped :
    (∀ (now : Nat) (db db' : DB) (cand : Candidate),
        allocation_pass now db = some (db', cand) →
        (∃ c ∈ sorted_allocations db, c.wasted_seats = 0) →
        cand.wasted_seats = 0)
    ∧ (∃ t ∈ (attempt_seating_allocation 10 scenario1_db).tables,
        t.capacity = 6 ∧ t.occupied_by_user_id = some 2)
    ∧ (∃ t ∈ (attempt_seating_allocation 10 scenario1_db).tables,
        t.capacity = 2 ∧ t.occupied_by_user_id = some 1) := by
  refine ⟨?_, by decide, by decide⟩
  intro now db db' cand hpass ⟨c, hc, hc0⟩
  rw [allocation_pass_eq_head] at hpass
  cases hs : sorted_allocations db with
  | nil => rw [hs] at hpass; cases hpass
  | cons c0 rest =>
    rw [hs] at hpass
    simp only [List.head?_cons, Option.map_some, Option.some.injEq,
      Prod.mk.injEq] at hpass
    obtain ⟨-, rfl⟩ := hpass
    rw [hs] at hc
    rcases List.mem_cons.1 hc with rfl | hrest
    · exact hc0
    · have hsorted : List.Sorted candidate_le (cand :: rest) := by
        rw [← hs]; exact List.sorted_insertionSort candidate_le _
      have hle := List.rel_of_sorted_cons hsorted c hrest
      unfold candidate_le at hle
      omega

/-- C2: in every pass the candidate pool is sorted by wasted seats then
enqueue timestamp, and the committed candidate is the first of the sorted
pool; hence with two size-2 parties enqueued at `t1 < t2` and one free
capacity-2 table, the `t1` party is seated at that table and the `t2` party
remains on the waitlist. -/
theorem fcfs_tie_break :
    (∀ db : DB, List.Sorted candidate_le (sorted_allocations db))
    ∧ (∀ (now : Nat) (db : DB),
        allocation_pass now db =
          (sorted_allocations db).head?.map
            (fun c => (seat_customer now db c.customer.id c.table.id, c)))
    ∧ (∀ t1 t2 : Nat, t1 < t2 →
        (attempt_seating_allocation 99 (scenario2_db t1 t2)).users
            = [⟨2, "p2", "ben", 2, t2⟩]
        ∧ ∀ t ∈ (attempt_seating_allocation 99 (scenario2_db t1 t2)).tables,
            t.status = "occupied" ∧ t.occupied_by_user_id = some 1) := by
  refine ⟨fun db => List.sorted_insertionSort candidate_le _,
          allocation_pass_eq_head, ?_⟩
  intro t1 t2 ht
  have hle : t1 ≤ t2 := Nat.le_of_lt ht
  have hw : get_waiting_customers (scenario2_db t1 t2) =
      [⟨1, "p1", "ann", 2, t1⟩, ⟨2, "p2", "ben", 2, t2⟩] := by
    unfold get_waiting_customers scenario2_db
    exact insertionSort_pair customer_le _ _ hle
  have hs : sorted_allocations (scenario2_db t1 t2) =
      [⟨0, t1, ⟨1, "p1", "ann", 2, t1⟩, ⟨1, "T1", 2, "free", none, none, 0⟩⟩,
       ⟨0, t2, ⟨2, "p2", "ben", 2, t2⟩, ⟨1, "T1", 2, "free", none, none, 0⟩⟩] := by
    unfold sorted_allocations
    rw [hw]
    exact insertionSort_pair candidate_le _ _ (Or.inr ⟨rfl, hle⟩)
  have hpass : allocation_pass 99 (scenario2_db t1 t2) =
      some (⟨[⟨2, "p2", "ben", 2, t2⟩],
             [⟨1, "T1", 2, "occupied", some 1, some 99, 99⟩], 3⟩,
            ⟨0, t1, ⟨1, "p1", "ann", 2, t1⟩, ⟨1, "T1", 2, "free", none, none, 0⟩⟩) := by
    rw [allocation_pass_eq_head, hs]
    rfl
  have hpass2 : allocation_pass 99
      (⟨[⟨2, "p2", "ben", 2, t2⟩],
        [⟨1, "T1", 2, "occupied", some 1, some 99, 99⟩], 3⟩ : DB) = none := by
    rw [allocation_pass_eq_head]
    rfl
  have hrun := (attempt_eq_of_pass_some hpass).trans (attempt_eq_of_pass_none hpass2)
  rw [hrun]
  exact ⟨rfl, by simp⟩

/-- Helper for the exact-decrease statement: deleting the row with a given
id removes exactly one entry when the queue ids are distinct. -/
theorem filter_ne_id_length {l : List Customer} {cid : Nat}
    (hmem : ∃ u ∈ l, u.id = cid) (hnodup : (l.map Customer.id).Nodup) :
    (l.filter fun u => u.id ≠ cid).length + 1 = l.length := by
  induction l with
  | nil => simp at hmem
  | cons u us ih =>
    simp only [List.map_cons, List.nodup_cons] at hnodup
    by_cases hu : u.id = cid
    · have hus : us.filter (fun u => u.id ≠ cid) = us := by
        rw [List.filter_eq_self]
        intro x hx
        have hne : ¬ x.id = cid := fun hxid =>
          hnodup.1 (by rw [hu, ← hxid]; exact List.mem_map_of_mem Customer.id hx)
        simpa using hne
      have hfc : (u :: us).filter (fun u => u.id ≠ cid) =
          us.filter (fun u => u.id ≠ cid) := by
        simp [List.filter_cons, hu]
      rw [hfc, hus, List.length_cons]
    · obtain ⟨v, hv, hvid⟩ := hmem
      rcases List.mem_cons.1 hv with rfl | hv'
      · exact absurd hvid hu
      · have h2 := ih ⟨v, hv', hvid⟩ hnodup.2
        have hfc : (u :: us).filter (fun u => u.id ≠ cid) =
            u :: us.filter (fun u => u.id ≠ cid) := by
          simp [List.filter_cons, hu]
        rw [hfc, List.length_cons, List.length_cons]
        omega

/-- C6: a pass invoked with an empty waitlist or no free table commits
nothing and does not recurse; a committed pass removes exactly one waitlist
entry (one seating) and restarts the run on the updated database; and the
run computed with any sufficient fuel is the same, i.e. the whole allocation
run terminates for every finite waitlist. -/
theorem allocation_run_terminates :
    (∀ (now : Nat) (db : DB), db.users = [] ∨ get_free_tables db = [] →
        allocation_pass now db = none ∧ attempt_seating_allocation now db = db)
    ∧ (∀ (now : Nat) (db db' : DB) (cand : Candidate),
        allocation_pass now db = some (db', cand) →
        db'.users.length < db.users.length
        ∧ ((db.users.map Customer.id).Nodup → db'.users.length + 1 = db.users.length)
        ∧ attempt_seating_allocation now db = attempt_seating_allocation now db')
    ∧ (∀ (now f : Nat) (db : DB), db.users.length < f →
        attempt_seating_allocation_fuel now f db = attempt_seating_allocation now db) := by
  refine ⟨?_, ?_, ?_⟩
  · intro now db h
    have hpool : sorted_allocations db = [] := by
      unfold sorted_allocations
      rcases h with h | h
      · have : get_waiting_customers db = [] := by
          unfold get_waiting_customers; rw [h]; rfl
        rw [this]; rfl
      · rw [h, potential_allocations_nil_tables]; rfl
    have hpass : allocation_pass now db = none := by
      rw [allocation_pass_eq_head, hpool]; rfl
    exact ⟨hpass, attempt_eq_of_pass_none hpass⟩
  · intro now db db' cand hpass
    refine ⟨allocation_pass_users_lt hpass, ?_, attempt_eq_of_pass_some hpass⟩
    intro hnodup
    obtain ⟨hmem, hdb'⟩ := execute_allocations_some hpass
    have hcust := customer_of_mem_sorted_allocations hmem
    subst hdb'
    exact filter_ne_id_length ⟨cand.customer, hcust, rfl⟩ hnodup
  · intro now f db hf
    exact attempt_fuel_irrelevant now f _ db hf (Nat.lt_succ_self _)

/-- Witness for C1: in the concrete `{2,2,4,6}` / `{2,5}` scenario the first
pass commits the zero-waste candidate (the size-2 party at a capacity-2
table). -/
theorem zero_waste_never_skipped_witness :
    (⟨0, 1, ⟨1, "c1", "alice", 2, 1⟩,
      ⟨1, "T1", 2, "free", none, none, 0⟩⟩ : Candidate).wasted_seats = 0 :=
  zero_waste_never_skipped.1 10 scenario1_db
    ⟨[⟨2, "c2", "bob", 5, 2⟩],
     [⟨1, "T1", 2, "occupied", some 1, some 10, 10⟩, ⟨2, "T2", 2, "free", none, none, 0⟩,
      ⟨3, "T3", 4, "free", none, none, 0⟩, ⟨4, "T4", 6, "free", none, none, 0⟩], 3⟩
    ⟨0, 1, ⟨1, "c1", "alice", 2, 1⟩, ⟨1, "T1", 2, "free", none, none, 0⟩⟩
    (by decide)
    ⟨⟨0, 1, ⟨1, "c1", "alice", 2, 1⟩, ⟨1, "T1", 2, "free", none, none, 0⟩⟩, by decide, rfl⟩

/-- Witness for C2: the FCFS scenario at `t1 = 0`, `t2 = 1`. -/
theorem fcfs_tie_break_witness :
    (attempt_seating_allocation 99 (scenario2_db 0 1)).users = [⟨2, "p2", "ben", 2, 1⟩]
    ∧ ∀ t ∈ (attempt_seating_allocation 99 (scenario2_db 0 1)).tables,
        t.status = "occupied" ∧ t.occupied_by_user_id = some 1 :=
  fcfs_tie_break.2.2 0 1 (by decide)

/-- Witness for C6: the seeded initial database has an empty waitlist, so a
pass commits nothing and the run is the identity. -/
theorem allocation_run_terminates_witness :
    allocation_pass 0 initial_db = none
    ∧ attempt_seating_allocation 0 initial_db = initial_db :=
  allocation_run_terminates.1 0 initial_db (Or.inl rfl)

/-! ### Helper lemmas: the table store -/

/-- Mapping a pointwise-identity-on-members function leaves a list alone. -/
theorem map_eq_self_of_mem {α : Type} {f : α → α} {l : List α}
    (h : ∀ x ∈ l, f x = x) : l.map f = l := by
  induction l with
  | nil => rfl
  | cons x xs ih =>
    rw [List.map_cons, h x (List.mem_cons_self x xs),
      ih fun y hy => h y (List.mem_cons_of_mem x hy)]

/-- Releasing a table number that no table carries changes nothing and
reports failure. -/
theorem update_table_no_match {now : Nat} {db : DB} {num : String}
    (h : ∀ t ∈ db.tables, t.table_number ≠ num) :
    update_table_status_to_free now db num = (db, false) := by
  unfold update_table_status_to_free
  have h1 : db.tables.map (fun t =>
      if t.table_number = num then
        { t with status := "free", occupied_by_user_id := none,
                 occupied_timestamp := none, timestamp := now }
      else t) = db.tables :=
    map_eq_self_of_mem fun t ht => if_neg (h t ht)
  have h2 : (db.tables.any fun t => t.table_number = num) = false := by
    simp only [List.any_eq_false, decide_eq_true_eq]
    exact h
  rw [h1, h2]

/-- The tables of a released database, described pointwise. -/
theorem update_table_mem {now : Nat} {db : DB} {num : String} {t : TableRec}
    (ht : t ∈ (update_table_status_to_free now db num).1.tables)
    (htn : t.table_number = num) :
    t.status = "free" ∧ t.occupied_by_user_id = none ∧ t.occupied_timestamp = none := by
  unfold update_table_status_to_free at ht
  simp only [List.mem_map] at ht
  obtain ⟨s, hs, rfl⟩ := ht
  by_cases hn : s.table_number = num
  · rw [if_pos hn]
    exact ⟨rfl, rfl, rfl⟩
  · rw [if_neg hn] at htn ⊢
    exact absurd htn hn

/-! ### Claim theorem: release idempotence (C5) -/

/-- C5: `update_table_status_to_free` is idempotent: if some table carries
the number, both of two consecutive calls return `true`, after either call
every table with that number is free with occupant id and occupied
timestamp cleared, and the table count never changes; if no table carries
the number, the call returns `false` and leaves the database unchanged. -/
theorem release_table_idempotent (now1 now2 : Nat) (db : DB) (num : String) :
    ((∃ t ∈ db.tables, t.table_number = num) →
      (update_table_status_to_free now1 db num).2 = true
      ∧ (update_table_status_to_free now2
          (update_table_status_to_free now1 db num).1 num).2 = true
      ∧ (∀ t ∈ (update_table_status_to_free now1 db num).1.tables,
          t.table_number = num →
          t.status = "free" ∧ t.occupied_by_user_id = none ∧ t.occupied_timestamp = none)
      ∧ (∀ t ∈ (update_table_status_to_free now2
            (update_table_status_to_free now1 db num).1 num).1.tables,
          t.table_number = num →
          t.status = "free" ∧ t.occupied_by_user_id = none ∧ t.occupied_timestamp = none)
      ∧ (update_table_status_to_free now1 db num).1.tables.length = db.tables.length
      ∧ (update_table_status_to_free now2
          (update_table_status_to_free now1 db num).1 num).1.tables.length
          = db.tables.length)
    ∧ ((¬ ∃ t ∈ db.tables, t.table_number = num) →
      (update_table_status_to_free now1 db num).2 = false
      ∧ (update_table_status_to_free now1 db num).1 = db) := by
  constructor
  · intro ⟨t, ht, htn⟩
    have hex1 : (update_table_status_to_free now1 db num).2 = true := by
      simp only [update_table_status_to_free, List.any_eq_true, decide_eq_true_eq]
      exact ⟨t, ht, htn⟩
    have hmem1 : ∃ s ∈ (update_table_status_to_free now1 db num).1.tables,
        s.table_number = num := by
      refine ⟨if t.table_number = num then
          { t with status := "free", occupied_by_user_id := none,
                   occupied_timestamp := none, timestamp := now1 }
        else t, ?_, ?_⟩
      · exact List.mem_map_of_mem _ ht
      · rw [if_pos htn]; exact htn
    have hex2 : (update_table_status_to_free now2
        (update_table_status_to_free now1 db num).1 num).2 = true := by
      simp only [update_table_status_to_free, List.any_eq_true, decide_eq_true_eq]
      exact hmem1
    refine ⟨hex1, hex2, fun s hs hsn => update_table_mem hs hsn,
            fun s hs hsn => update_table_mem hs hsn, ?_, ?_⟩
    · simp [update_table_status_to_free]
    · simp [update_table_status_to_free]
  · intro hne
    have h : ∀ t ∈ db.tables, t.table_number ≠ num := by
      intro t ht htn
      exact hne ⟨t, ht, htn⟩
    rw [update_table_no_match h]
    exact ⟨rfl, rfl⟩

/-- Witness for C5: release of `"T1"` (present) and of `"T99"` (absent) on
the seeded initial database. -/
theorem release_table_idempotent_witness :
    ((update_table_status_to_free 1 initial_db "T1").2 = true
      ∧ (update_table_status_to_free 2
          (update_table_status_to_free 1 initial_db "T1").1 "T1").2 = true
      ∧ (∀ t ∈ (update_table_status_to_free 1 initial_db "T1").1.tables,
          t.table_number = "T1" →
          t.status = "free" ∧ t.occupied_by_user_id = none ∧ t.occupied_timestamp = none)
      ∧ (∀ t ∈ (update_table_status_to_free 2
            (update_table_status_to_free 1 initial_db "T1").1 "T1").1.tables,
          t.table_number = "T1" →
          t.status = "free" ∧ t.occupied_by_user_id = none ∧ t.occupied_timestamp = none)
      ∧ (update_table_status_to_free 1 initial_db "T1").1.tables.length
          = initial_db.tables.length
      ∧ (update_table_status_to_free 2
          (update_table_status_to_free 1 initial_db "T1").1 "T1").1.tables.length
          = initial_db.tables.length)
    ∧ ((update_table_status_to_free 1 initial_db "T99").2 = false
      ∧ (update_table_status_to_free 1 initial_db "T99").1 = initial_db) :=
  ⟨(release_table_idempotent 1 2 initial_db "T1").1 (by decide),
   (release_table_idempotent 1 2 initial_db "T99").2 (by decide)⟩

/-! ### Claim theorem: occupancy invariant (C9) -/

/-- Every seeded table is free with no occupant. -/
theorem seed_tables_free :
    ∀ (cfg : List (String × Nat)) (i : Nat) (t : TableRec),
      t ∈ seed_tables cfg i → t.status = "free" ∧ t.occupied_by_user_id = none := by
  intro cfg
  induction cfg with
  | nil => intro i t ht; cases ht
  | cons p rest ih =>
    intro i t ht
    obtain ⟨n, c⟩ := p
    rcases List.mem_cons.1 ht with rfl | h
    · exact ⟨rfl, rfl⟩
    · exact ih (i + 1) t h

/-- C9: in every database state reachable from the seeded initial state by
seat and release operations, a table's occupant id is set exactly when its
status is occupied: seeding creates every table free with no occupant,
`seat_customer` sets the occupant id together with the occupied status, and
`update_table_status_to_free` clears the occupant id together with the free
status. -/
theorem occupant_iff_occupied_invariant (db : DB) (h : Reach db) :
    occupant_iff_occupied db := by
  induction h with
  | init =>
    intro t ht
    obtain ⟨hfree, hocc⟩ := seed_tables_free initial_tables_config 1 t ht
    rw [hfree, hocc]
    simp
  | seat now cid tid hdb ih =>
    intro t ht
    unfold seat_customer at ht
    simp only [List.mem_map] at ht
    obtain ⟨s, hs, rfl⟩ := ht
    by_cases hid : s.id = tid
    · rw [if_pos hid]
      simp
    · rw [if_neg hid]
      exact ih s hs
  | release now num hdb ih =>
    intro t ht
    unfold update_table_status_to_free at ht
    simp only [List.mem_map] at ht
    obtain ⟨s, hs, rfl⟩ := ht
    by_cases hn : s.table_number = num
    · rw [if_pos hn]
      simp
    · rw [if_neg hn]
      exact ih s hs

/-- Witness for C9: the invariant at the seeded initial state. -/
theorem occupant_iff_occupied_invariant_witness :
    occupant_iff_occupied initial_db :=
  occupant_iff_occupied_invariant initial_db Reach.init

/-! ### Helper lemmas: enqueue upsert (C4) -/

/-- A map that preserves phone numbers preserves the per-phone count. -/
theorem countP_map_phone {l : List Customer} {phone : String} {f : Customer → Customer}
    (hf : ∀ v, (f v).phone_number = v.phone_number) :
    (l.map f).countP (fun u => u.phone_number = phone)
      = l.countP (fun u => u.phone_number = phone) := by
  induction l with
  | nil => rfl
  | cons x xs ih =>
    simp only [List.map_cons, List.countP_cons, ih, hf]

/-- If exactly one list member satisfies a predicate, any two satisfying
members coincide. -/
theorem countP_eq_one_mem_unique {α : Type} {p : α → Bool} {l : List α}
    (h : l.countP p = 1) {a b : α} (ha : a ∈ l) (hpa : p a) (hb : b ∈ l) (hpb : p b) :
    a = b := by
  rw [List.countP_eq_length_filter] at h
  obtain ⟨z, hz⟩ := List.length_eq_one.1 h
  have h1 : a ∈ l.filter p := List.mem_filter.2 ⟨ha, hpa⟩
  have h2 : b ∈ l.filter p := List.mem_filter.2 ⟨hb, hpb⟩
  rw [hz, List.mem_singleton] at h1 h2
  rw [h1, h2]

/-- After one upsert, exactly one queue row carries the phone number. -/
theorem save_countP (now : Nat) (db : DB) (phone name : String) (count : Nat)
    (h : db.users.countP (fun u => u.phone_number = phone) ≤ 1) :
    (save_user_data_to_db now db phone name count).1.users.countP
      (fun u => u.phone_number = phone) = 1 := by
  unfold save_user_data_to_db
  cases hfind : db.users.find? (fun u => u.phone_number = phone) with
  | some u =>
    simp only
    rw [countP_map_phone (fun v => by by_cases hv : v.id = u.id <;> simp [hv])]
    have hpu := List.find?_some hfind
    have hpos : 0 < db.users.countP (fun u => u.phone_number = phone) :=
      List.countP_pos_iff.2 ⟨u, List.mem_of_find?_eq_some hfind, hpu⟩
    omega
  | none =>
    simp only
    rw [List.countP_append]
    have h0 : db.users.countP (fun u => u.phone_number = phone) = 0 :=
      List.countP_eq_zero.2 (List.find?_eq_none.1 hfind)
    rw [h0]
    simp

/-! ### Claim theorem: enqueue uniqueness (C4) -/

/-- C4: enqueueing a party identifier a second time (with possibly
different name and size) leaves exactly one waitlist row for that
identifier, carrying the latest name, latest size, and the refreshed
timestamp, and creates no duplicate: the second enqueue does not change the
number of rows. -/
theorem enqueue_upsert_unique (now1 now2 : Nat) (db : DB) (phone n1 n2 : String)
    (c1 c2 : Nat)
    (h : db.users.countP (fun u => u.phone_number = phone) ≤ 1) :
    ((save_user_data_to_db now2
        (save_user_data_to_db now1 db phone n1 c1).1 phone n2 c2).1.users.countP
        (fun u => u.phone_number = phone) = 1)
    ∧ (∀ u ∈ (save_user_data_to_db now2
          (save_user_data_to_db now1 db phone n1 c1).1 phone n2 c2).1.users,
        u.phone_number = phone →
        u.name = n2 ∧ u.people_count = c2 ∧ u.timestamp = now2)
    ∧ (save_user_data_to_db now2
        (save_user_data_to_db now1 db phone n1 c1).1 phone n2 c2).1.users.length
        = (save_user_data_to_db now1 db phone n1 c1).1.users.length := by
  set db1 := (save_user_data_to_db now1 db phone n1 c1).1 with hdb1
  have h1 : db1.users.countP (fun u => u.phone_number = phone) = 1 :=
    save_countP now1 db phone n1 c1 h
  refine ⟨save_countP now2 db1 phone n2 c2 (le_of_eq h1), ?_, ?_⟩
  · intro u hu hup
    unfold save_user_data_to_db at hu
    cases hfind : db1.users.find? (fun u => u.phone_number = phone) with
    | none =>
      exfalso
      have h0 : db1.users.countP (fun u => u.phone_number = phone) = 0 :=
        List.countP_eq_zero.2 (List.find?_eq_none.1 hfind)
      omega
    | some w =>
      rw [hfind] at hu
      simp only [List.mem_map] at hu
      obtain ⟨v, hv, rfl⟩ := hu
      have hvp : (fun u : Customer => decide (u.phone_number = phone)) v = true := by
        by_cases hvw : v.id = w.id
        · simp only [hvw, if_pos rfl] at hup
          simpa using hup
        · rw [if_neg hvw] at hup
          simpa using hup
      have hpw := List.find?_some hfind
      have hvw : v = w :=
        countP_eq_one_mem_unique h1 hv hvp (List.mem_of_find?_eq_some hfind) hpw
      rw [hvw, if_pos rfl]
      exact ⟨rfl, rfl, rfl⟩
  · unfold save_user_data_to_db
    cases hfind : db1.users.find? (fun u => u.phone_number = phone) with
    | none =>
      exfalso
      have h0 : db1.users.countP (fun u => u.phone_number = phone) = 0 :=
        List.countP_eq_zero.2 (List.find?_eq_none.1 hfind)
      omega
    | some w => simp

/-- Witness for C4: enqueueing the same phone twice into the empty seeded
database. -/
theorem enqueue_upsert_unique_witness :
    ((save_user_data_to_db 7
        (save_user_data_to_db 3 initial_db "p77" "ann" 2).1 "p77" "anna" 4).1.users.countP
        (fun u => u.phone_number = "p77") = 1)
    ∧ (∀ u ∈ (save_user_data_to_db 7
          (save_user_data_to_db 3 initial_db "p77" "ann" 2).1 "p77" "anna" 4).1.users,
        u.phone_number = "p77" →
        u.name = "anna" ∧ u.people_count = 4 ∧ u.timestamp = 7)
    ∧ (save_user_data_to_db 7
        (save_user_data_to_db 3 initial_db "p77" "ann" 2).1 "p77" "anna" 4).1.users.length
        = (save_user_data_to_db 3 initial_db "p77" "ann" 2).1.users.length :=
  enqueue_upsert_unique 3 7 initial_db "p77" "ann" "anna" 2 4 (by decide)

/-! ### Helper lemmas: the webhook state machine -/

/-- Characterization of `handle_text` in the waiter's
`awaiting_free_table_number` state: the input is normalized, the release is
attempted, the matching confirmation or lookup error is sent, and the
session is reset to customer/initial in both cases. -/
theorem handle_text_free_table (now : Nat) (sender body : String) (st : UserState)
    (db : DB) (hstate : st.state = "awaiting_free_table_number")
    (hrole : st.role = "waiter") :
    handle_text now sender st db body =
      if db.tables.any fun t =>
          t.table_number = normalize_table_number (py_strip (py_lower body)) then
        ⟨⟨"customer", "initial"⟩,
         attempt_seating_allocation now
           (update_table_status_to_free now db
             (normalize_table_number (py_strip (py_lower body)))).1,
         [(sender, Msg.table_marked_free
             (normalize_table_number (py_strip (py_lower body))))]⟩
      else
        ⟨⟨"customer", "initial"⟩,
         (update_table_status_to_free now db
           (normalize_table_number (py_strip (py_lower body)))).1,
         [(sender, Msg.table_not_found
             (normalize_table_number (py_strip (py_lower body))))]⟩ := by
  unfold handle_text
  rw [if_neg (by rw [hstate]; simp), if_neg (by rw [hstate]; simp),
    if_pos ⟨hstate, hrole⟩]
  rfl

/-- The id returned by the upsert is positive when the database ids are. -/
theorem save_id_pos {now : Nat} {db : DB} {phone name : String} {count : Nat}
    (hnext : 1 ≤ db.next_user_id) (hids : ∀ u ∈ db.users, 1 ≤ u.id) :
    1 ≤ (save_user_data_to_db now db phone name count).2 := by
  unfold save_user_data_to_db
  cases hfind : db.users.find? (fun u => u.phone_number = phone) with
  | some u => exact hids u (List.mem_of_find?_eq_some hfind)
  | none => exact hnext

/-- Characterization of `handle_text` in the customer's
`awaiting_name_people` state: the reply is parsed as `"Name, Count"`; a
parse failure or an out-of-range count sends the matching validation error
and leaves everything unchanged; otherwise the party is enqueued, the
confirmation is sent, the session resets, and allocation runs. -/
theorem handle_text_awaiting_name (now : Nat) (sender body : String)
    (st : UserState) (db : DB) (hstate : st.state = "awaiting_name_people")
    (hrole : st.role = "customer") (hnext : 1 ≤ db.next_user_id)
    (hids : ∀ u ∈ db.users, 1 ≤ u.id) :
    handle_text now sender st db body =
      match parse_name_people (py_strip (py_lower body)) with
      | none => ⟨st, db, [(sender, Msg.format_error)]⟩
      | some (name, people_count) =>
        if people_count ≤ 0 then
          ⟨st, db, [(sender, Msg.positive_integer_required)]⟩
        else if 6 < people_count then
          ⟨st, db, [(sender, Msg.too_many_people)]⟩
        else
          ⟨⟨"customer", "initial"⟩,
           attempt_seating_allocation now
             (save_user_data_to_db now db sender name people_count.toNat).1,
           [(sender, Msg.queued_confirmation name people_count.toNat)]⟩ := by
  unfold handle_text
  rw [if_neg (by rw [hstate]; simp), if_neg (by rw [hstate]; simp),
    if_neg (by rw [hstate]; simp), if_neg (by rw [hstate]; simp),
    if_pos ⟨hstate, hrole⟩]
  cases hp : parse_name_people (py_strip (py_lower body)) with
  | none => rfl
  | some v =>
    obtain ⟨name, people_count⟩ := v
    simp only
    by_cases h0 : people_count ≤ 0
    · rw [if_pos h0, if_pos h0]
    · rw [if_neg h0, if_neg h0]
      by_cases h6 : 6 < people_count
      · rw [if_pos h6, if_pos h6]
      · rw [if_neg h6, if_neg h6]
        have hpos : 1 ≤ (save_user_data_to_db now db sender name
            people_count.toNat).2 := save_id_pos hnext hids
        rw [if_pos (by omega)]

/-! ### Claim theorems: the webhook state machine -/

/-- Counterexample to C3: with the waiter in `awaiting_free_table_number`
and the input `"99"` (which normalizes to the unknown table number
`"T99"`), the session does not stay in waiter/`awaiting_free_table_number`
as claimed: the handler resets it. -/
theorem unknown_table_keeps_session_counterexample :
    (handle_text 0 "w" ⟨"waiter", "awaiting_free_table_number"⟩ initial_db "99").user_state
      ≠ ⟨"waiter", "awaiting_free_table_number"⟩ := by
  decide

/-- C3 (amended): for a waiter in `awaiting_free_table_number`, if the
input normalizes to a table number no table carries, the handler sends the
lookup error, leaves every table unchanged, and resets the session to
customer/initial (rather than leaving it unchanged). -/
theorem unknown_table_release_behavior (now : Nat) (sender body : String)
    (st : UserState) (db : DB) (hstate : st.state = "awaiting_free_table_number")
    (hrole : st.role = "waiter")
    (hmiss : ∀ t ∈ db.tables,
      t.table_number ≠ normalize_table_number (py_strip (py_lower body))) :
    handle_text now sender st db body =
      ⟨⟨"customer", "initial"⟩, db,
       [(sender, Msg.table_not_found
           (normalize_table_number (py_strip (py_lower body))))]⟩ := by
  rw [handle_text_free_table now sender body st db hstate hrole]
  have hupd := @update_table_no_match now db
    (normalize_table_number (py_strip (py_lower body))) hmiss
  have hany : (db.tables.any fun t =>
      t.table_number = normalize_table_number (py_strip (py_lower body))) = false := by
    simp only [List.any_eq_false, decide_eq_true_eq]
    exact hmiss
  rw [hany]
  simp only [Bool.false_eq_true, if_false, hupd]

/-- Witness for the amended C3: the concrete unknown input `"99"` on the
seeded database. -/
theorem unknown_table_release_behavior_witness :
    handle_text 0 "w" ⟨"waiter", "awaiting_free_table_number"⟩ initial_db "99"
      = ⟨⟨"customer", "initial"⟩, initial_db,
         [("w", Msg.table_not_found
             (normalize_table_number (py_strip (py_lower "99"))))]⟩ :=
  unknown_table_release_behavior 0 "w" "99"
    ⟨"waiter", "awaiting_free_table_number"⟩ initial_db rfl rfl (by decide)

/-- C7: for a customer in `awaiting_name_people`, the enqueue is issued
exactly when the text splits on one comma into a name and an integer count
with `0 < count ≤ 6`: then the queued confirmation is sent and the session
resets to customer/initial; on a parse failure, a non-positive count, or a
count above 6, the matching validation error is sent, the session is
unchanged, and nothing is enqueued (the database is untouched). -/
theorem name_people_validation (now : Nat) (sender body : String)
    (st : UserState) (db : DB) (hstate : st.state = "awaiting_name_people")
    (hrole : st.role = "customer") (hnext : 1 ≤ db.next_user_id)
    (hids : ∀ u ∈ db.users, 1 ≤ u.id) :
    handle_text now sender st db body =
      match parse_name_people (py_strip (py_lower body)) with
      | none => ⟨st, db, [(sender, Msg.format_error)]⟩
      | some (name, people_count) =>
        if people_count ≤ 0 then
          ⟨st, db, [(sender, Msg.positive_integer_required)]⟩
        else if 6 < people_count then
          ⟨st, db, [(sender, Msg.too_many_people)]⟩
        else
          ⟨⟨"customer", "initial"⟩,
           attempt_seating_allocation now
             (save_user_data_to_db now db sender name people_count.toNat).1,
           [(sender, Msg.queued_confirmation name people_count.toNat)]⟩ :=
  handle_text_awaiting_name now sender body st db hstate hrole hnext hids

/-- Witness for C7: the concrete reply `"John, 5"` from a customer in
`awaiting_name_people` over the seeded database. -/
theorem name_people_validation_witness :
    handle_text 5 "c9" ⟨"customer", "awaiting_name_people"⟩ initial_db "John, 5"
      = match parse_name_people (py_strip (py_lower "John, 5")) with
        | none => ⟨⟨"customer", "awaiting_name_people"⟩, initial_db,
                   [("c9", Msg.format_error)]⟩
        | some (name, people_count) =>
          if people_count ≤ 0 then
            ⟨⟨"customer", "awaiting_name_people"⟩, initial_db,
             [("c9", Msg.positive_integer_required)]⟩
          else if 6 < people_count then
            ⟨⟨"customer", "awaiting_name_people"⟩, initial_db,
             [("c9", Msg.too_many_people)]⟩
          else
            ⟨⟨"customer", "initial"⟩,
             attempt_seating_allocation 5
               (save_user_data_to_db 5 initial_db "c9" name people_count.toNat).1,
             [("c9", Msg.queued_confirmation name people_count.toNat)]⟩ :=
  name_people_validation 5 "c9" "John, 5" ⟨"customer", "awaiting_name_people"⟩
    initial_db rfl rfl (by decide) (by decide)

/-- C8: table-number normalization removes the word `"table"` and
surrounding whitespace; a pure digit remainder is prefixed with `"T"`
(e.g. `"4"` becomes `"T4"`); any other remainder is upper-cased and used
as-is; and in the waiter's release state the lookup error is sent exactly
when no table carries the normalized number. -/
theorem table_number_normalization :
    (∀ text : String, py_isdigit (py_strip (py_replace_table text)) = true →
        normalize_table_number text = "T" ++ py_strip (py_replace_table text))
    ∧ (∀ text : String, py_isdigit (py_strip (py_replace_table text)) = false →
        normalize_table_number text = py_upper (py_strip (py_replace_table text)))
    ∧ normalize_table_number "4" = "T4"
    ∧ normalize_table_number "table 4" = "T4"
    ∧ (∀ (now : Nat) (sender body : String) (st : UserState) (db : DB),
        st.state = "awaiting_free_table_number" → st.role = "waiter" →
        (((sender, Msg.table_not_found
            (normalize_table_number (py_strip (py_lower body))))
            ∈ (handle_text now sender st db body).messages)
          ↔ ¬ ∃ t ∈ db.tables,
              t.table_number = normalize_table_number (py_strip (py_lower body)))) := by
  refine ⟨?_, ?_, by decide, by decide, ?_⟩
  · intro text h
    unfold normalize_table_number
    rw [if_pos h]
  · intro text h
    unfold normalize_table_number
    rw [if_neg (by rw [h]; simp)]
  · intro now sender body st db hstate hrole
    rw [handle_text_free_table now sender body st db hstate hrole]
    cases hany : (db.tables.any fun t =>
        t.table_number = normalize_table_number (py_strip (py_lower body))) with
    | true =>
      simp only [if_true]
      constructor
      · intro hmem
        rcases List.mem_singleton.1 hmem with h
        cases h
      · intro hno
        exfalso
        apply hno
        simpa using hany
    | false =>
      simp only [Bool.false_eq_true, if_false]
      constructor
      · intro _
        simp only [List.any_eq_false, decide_eq_true_eq] at hany
        rintro ⟨t, ht, htn⟩
        exact hany t ht htn
      · intro _
        exact List.mem_singleton.2 rfl

/-- Witness for C8: the digit-prefix rule at `"table 12"` and the
lookup-failure equivalence at the unknown input `"99"`. -/
theorem table_number_normalization_witness :
    normalize_table_number "table 12" = "T" ++ py_strip (py_replace_table "table 12")
    ∧ ((("w", Msg.table_not_found (normalize_table_number (py_strip (py_lower "99"))))
          ∈ (handle_text 0 "w" ⟨"waiter", "awaiting_free_table_number"⟩
              initial_db "99").messages)
        ↔ ¬ ∃ t ∈ initial_db.tables,
            t.table_number = normalize_table_number (py_strip (py_lower "99"))) :=
  ⟨table_number_normalization.1 "table 12" (by decide),
   table_number_normalization.2.2.2.2 0 "w" "99"
     ⟨"waiter", "awaiting_free_table_number"⟩ initial_db rfl rfl⟩

/-- C10: the handler depends on the raw body only through its lowercased,
whitespace-stripped form, so two bodies with the same normalization behave
identically; consequently the triggers `"hi"` and `"waiter"` and the waiter
password are accepted in any letter case, and the name stored on enqueue is
taken from the lowercased text. -/
theorem inbound_text_normalization :
    (∀ (now : Nat) (sender : String) (st : UserState) (db : DB) (b1 b2 : String),
        py_strip (py_lower b1) = py_strip (py_lower b2) →
        handle_text now sender st db b1 = handle_text now sender st db b2)
    ∧ (∀ (now : Nat) (sender : String) (st : UserState) (db : DB) (body : String),
        st.state = "initial" → py_strip (py_lower body) = "waiter" →
        handle_text now sender st db body
          = ⟨⟨"waiter", "awaiting_waiter_password"⟩, db,
             [(sender, Msg.password_prompt)]⟩)
    ∧ (∀ (now : Nat) (sender : String) (st : UserState) (db : DB) (body : String),
        st.state = "initial" → py_strip (py_lower body) = "hi" →
        handle_text now sender st db body
          = ⟨⟨"customer", "awaiting_name_people"⟩, db,
             [(sender, Msg.name_people_prompt)]⟩)
    ∧ (∀ (now : Nat) (sender : String) (st : UserState) (db : DB) (body : String),
        st.state = "awaiting_waiter_password" → st.role = "waiter" →
        py_strip (py_lower body) = "waiter123" →
        handle_text now sender st db body
          = ⟨⟨"waiter", "awaiting_free_table_number"⟩, db,
             [(sender, Msg.waiter_authenticated)]⟩)
    ∧ (∀ (now : Nat) (sender : String) (st : UserState) (db : DB) (body name : String)
          (n : Int),
        st.state = "awaiting_name_people" → st.role = "customer" →
        1 ≤ db.next_user_id → (∀ u ∈ db.users, 1 ≤ u.id) →
        parse_name_people (py_strip (py_lower body)) = some (name, n) →
        0 < n → n ≤ 6 →
        (handle_text now sender st db body).db
          = attempt_seating_allocation now
              (save_user_data_to_db now db sender name n.toNat).1) := by
  refine ⟨?_, ?_, ?_, ?_, ?_⟩
  · intro now sender st db b1 b2 h
    unfold handle_text
    rw [h]
  · intro now sender st db body hstate h
    unfold handle_text
    rw [h, if_pos ⟨hstate, rfl⟩]
  · intro now sender st db body hstate h
    unfold handle_text
    rw [h, if_neg (by simp), if_neg (by rw [hstate]; simp),
      if_neg (by rw [hstate]; simp), if_pos ⟨hstate, rfl⟩]
  · intro now sender st db body hstate hrole h
    unfold handle_text
    rw [h, if_neg (by rw [hstate]; simp), if_pos ⟨hstate, hrole⟩, if_pos rfl]
  · intro now sender st db body name n hstate hrole hnext hids hp h0 h6
    rw [handle_text_awaiting_name now sender body st db hstate hrole hnext hids, hp]
    simp only
    rw [if_neg (by omega), if_neg (by omega)]

/-- Witness for C10: the mixed-case trigger `" WaItEr "` from the initial
state starts the waiter flow. -/
theorem inbound_text_normalization_witness :
    handle_text 0 "c1" ⟨"customer", "initial"⟩ initial_db " WaItEr "
      = ⟨⟨"waiter", "awaiting_waiter_password"⟩, initial_db,
         [("c1", Msg.password_prompt)]⟩ :=
  inbound_text_normalization.2.1 0 "c1" ⟨"customer", "initial"⟩ initial_db
    " WaItEr " rfl (by decide)
